import Mathlib

/-!
Verification of the SSH agent bridge (stdin/stdout to named pipe forwarder).

Shallow embedding of `src/main.rs`:
  * byte buffers are `List Nat` (each element a `u8` value);
  * `SshAgentCodec.decode` / `SshAgentCodec.encode` follow the
    `tokio_util::codec::Decoder` / `Encoder` implementations;
  * `connect_to_named_pipe` models the retry loop, with the OS open call
    abstracted as a function from attempt index to a result, and the trace
    recording the number of open attempts and the list of sleep durations;
  * `forward_stream` / `bridgeLoop` model the forwarding loop, with a framed
    reader modelled as the list of messages (or read errors) it will yield
    before end-of-stream, and a framed writer as the byte buffer it has
    written.
-/

namespace WslSshAgent

/-- HEADER_SIZE from the source: size of a `u32`, the 4-byte length header. -/
def HEADER_SIZE : Nat := 4

/-- The `SshAgentMessage` struct: a length field (`u32`, modelled as `Nat`,
values below `2 ^ 32`) and a payload byte vector. -/
structure SshAgentMessage where
  length : Nat
  payload : List Nat
deriving DecidableEq, Repr

/-- The constructor `SshAgentMessage::new`. -/
def SshAgentMessage.new (length : Nat) (payload : List Nat) : SshAgentMessage :=
  ⟨length, payload⟩

/-- Rust `u32::from_be_bytes`: big-endian interpretation of four bytes. -/
def u32FromBeBytes (b0 b1 b2 b3 : Nat) : Nat :=
  b0 * 2 ^ 24 + b1 * 2 ^ 16 + b2 * 2 ^ 8 + b3

/-- Rust `u32::to_be_bytes` for a value below `2 ^ 32`: the four big-endian
bytes. The `% 256` reductions mirror the byte extraction of the machine
integer. -/
def u32ToBeBytes (n : Nat) : List Nat :=
  [n / 2 ^ 24 % 256, n / 2 ^ 16 % 256, n / 2 ^ 8 % 256, n % 256]

/-- Rust `src[..HEADER_SIZE].try_into() : Result<[u8; 4], _>`: succeeds
exactly when the slice has exactly four elements. -/
def tryIntoArray4 (bs : List Nat) : Except Unit (Nat × Nat × Nat × Nat) :=
  match bs with
  | [b0, b1, b2, b3] => .ok (b0, b1, b2, b3)
  | _ => .error ()

/-- `SshAgentCodec::decode` from the source.  Input is the accumulated
buffer; output is `Ok (produced message?, remaining buffer)` or a decode
error.  Mirrors: the `< HEADER_SIZE` check, the `try_into` of the first four
bytes (error mapped to the InvalidData message), the `< HEADER_SIZE + length`
check, then `advance(HEADER_SIZE)` and `split_to(length)`. -/
def SshAgentCodec.decode (src : List Nat) :
    Except String (Option SshAgentMessage × List Nat) :=
  if src.length < HEADER_SIZE then
    .ok (none, src)
  else
    match tryIntoArray4 (src.take HEADER_SIZE) with
    | .error _ => .error "Failed to read length"
    | .ok (b0, b1, b2, b3) =>
      let length := u32FromBeBytes b0 b1 b2 b3
      if src.length < HEADER_SIZE + length then
        .ok (none, src)
      else
        let afterHeader := src.drop HEADER_SIZE
        let payload := afterHeader.take length
        .ok (some (SshAgentMessage.new length payload), afterHeader.drop length)

/-- `SshAgentCodec::encode` from the source: append the stored length field
as four big-endian bytes, then the raw payload bytes, to the destination
buffer; always returns `Ok`. -/
def SshAgentCodec.encode (item : SshAgentMessage) (dst : List Nat) :
    Except String (List Nat) :=
  .ok (dst ++ u32ToBeBytes item.length ++ item.payload)

/-- The error produced when `connect_to_named_pipe` gives up: the source
formats the pipe name, the total attempt count `max_retries + 1` and the last
underlying open error into the `anyhow!` message; the unreachable
post-loop `anyhow!("Unexpected error connecting to named pipe")` is the
second constructor. -/
inductive ConnError where
  | exhausted (pipeName : String) (attempts : Nat) (lastErr : String)
  | unexpected
deriving DecidableEq, Repr

/-- Observable trace of one `connect_to_named_pipe` call: the returned value
(the open handle, of abstract type `H`, or the error), the number of open
attempts made, and the list of sleep durations (milliseconds), in order. -/
structure ConnectTrace (H : Type) where
  result : Except ConnError H
  attempts : Nat
  sleepsMs : List Nat

/-- The body of the `for attempt in 0..=max_retries` loop of
`connect_to_named_pipe`, starting at iteration `attempt`.  `openFn` abstracts
`OpenOptions::open` on the pipe path: attempt index to opened handle or OS
error string.  On `Ok` the handle is returned at once; on `Err`, if
`attempt == max_retries` the exhausted error is returned, otherwise the
thread sleeps `retryDelayMs` and the loop continues. -/
def connectFrom (H : Type) (pipeName : String) (maxRetries : Nat)
    (retryDelayMs : Nat) (openFn : Nat → Except String H) (attempt : Nat) :
    ConnectTrace H :=
  if attempt ≤ maxRetries then
    match openFn attempt with
    | .ok h => ⟨.ok h, 1, []⟩
    | .error e =>
      if attempt = maxRetries then
        ⟨.error (.exhausted pipeName (maxRetries + 1) e), 1, []⟩
      else
        let t := connectFrom H pipeName maxRetries retryDelayMs openFn (attempt + 1)
        ⟨t.result, t.attempts + 1, retryDelayMs :: t.sleepsMs⟩
  else
    ⟨.error .unexpected, 0, []⟩
termination_by maxRetries + 1 - attempt

/-- `connect_to_named_pipe` from the source: run the retry loop from
`attempt = 0`. -/
def connect_to_named_pipe (H : Type) (pipeName : String) (maxRetries : Nat)
    (retryDelayMs : Nat) (openFn : Nat → Except String H) : ConnectTrace H :=
  connectFrom H pipeName maxRetries retryDelayMs openFn 0

/-- One `next()` result of a `FramedRead`: a decoded message or a decode/IO
error.  A reader is modelled by the finite list of results it yields before
reporting end-of-stream. -/
abbrev ReadItem := Except String SshAgentMessage

/-- `forward_stream` from the source: poll the reader once; on end-of-stream
return `Ok false`; on a read error propagate it (the `msg?`); on a message,
encode it onto the writer buffer (`writer.send`, which runs
`SshAgentCodec::encode`) and return `Ok true`.  The writer is modelled by
the bytes it has accepted; flushing does not change them. -/
def forward_stream (reader : List ReadItem) (writer : List Nat) :
    Except String (Bool × List ReadItem × List Nat) :=
  match reader with
  | [] => .ok (false, [], writer)
  | .error e :: _ => .error e
  | .ok msg :: rest =>
    match SshAgentCodec.encode msg writer with
    | .error e => .error e
    | .ok w => .ok (true, rest, w)

/-- The `loop` of `handle_ssh_protocol_framing`: forward one message from
stdin to the pipe, breaking on stdin end-of-stream; then one message from
the pipe to stdout, breaking on pipe end-of-stream; repeat.  Returns the
final contents of the two writer buffers on clean termination, or the first
fatal error. -/
def bridgeLoop (stdinR pipeR : List ReadItem) (pipeW stdoutW : List Nat) :
    Except String (List Nat × List Nat) :=
  match h1 : forward_stream stdinR pipeW with
  | .error e => .error e
  | .ok (false, _, _) => .ok (pipeW, stdoutW)
  | .ok (true, stdinR2, pipeW2) =>
    match forward_stream pipeR stdoutW with
    | .error e => .error e
    | .ok (false, _, stdoutW2) => .ok (pipeW2, stdoutW2)
    | .ok (true, pipeR2, stdoutW2) => bridgeLoop stdinR2 pipeR2 pipeW2 stdoutW2
termination_by stdinR.length
decreasing_by
  cases stdinR with
  | nil => simp [forward_stream] at h1
  | cons x rest =>
    cases x with
    | error e => simp [forward_stream] at h1
    | ok m =>
      simp [forward_stream, SshAgentCodec.encode] at h1
      simp [← h1.1]

/-- Concrete open oracle: the first three attempts fail, the fourth
succeeds with handle `7`. -/
def failThreeThenOk : Nat → Except String Nat :=
  fun j => if j < 3 then .error "pipe busy" else .ok 7

/-- The byte stream of a list of messages, each framed with the four-byte
big-endian header for its actual payload byte count. -/
def framedBytes : List SshAgentMessage → List Nat
  | [] => []
  | m :: rest => u32ToBeBytes m.payload.length ++ m.payload ++ framedBytes rest

theorem connectFrom_all_fail (H : Type) (pipe : String) (R D : Nat)
    (errs : Nat → String) :
    ∀ n a, a + n = R →
      connectFrom H pipe R D (fun k => .error (errs k)) a =
        ⟨.error (.exhausted pipe (R + 1) (errs R)), n + 1, List.replicate n D⟩ := by
  intro n
  induction n with
  | zero =>
    intro a ha
    rw [Nat.add_zero] at ha
    subst ha
    rw [connectFrom]
    simp
  | succ n ih =>
    intro a ha
    rw [connectFrom]
    have h1 : a ≤ R := by omega
    have h2 : ¬ a = R := by omega
    simp [h1, h2, ih (a + 1) (by omega), List.replicate_succ]

theorem connectFrom_succeeds (H : Type) (pipe : String) (R D k : Nat)
    (openFn : Nat → Except String H) (h : H) (hkR : k ≤ R)
    (hfail : ∀ j, j < k → ∃ e, openFn j = .error e) (hok : openFn k = .ok h) :
    ∀ n a, a + n = k →
      connectFrom H pipe R D openFn a = ⟨.ok h, n + 1, List.replicate n D⟩ := by
  intro n
  induction n with
  | zero =>
    intro a ha
    rw [Nat.add_zero] at ha
    subst ha
    rw [connectFrom]
    simp [hkR, hok]
  | succ n ih =>
    intro a ha
    obtain ⟨e, he⟩ := hfail a (by omega)
    rw [connectFrom]
    have h1 : a ≤ R := by omega
    have h2 : ¬ a = R := by omega
    simp [h1, h2, he, ih (a + 1) (by omega), List.replicate_succ]

theorem u32FromBeBytes_toBeBytes (n : Nat) (h : n < 2 ^ 32) :
    u32FromBeBytes (n / 2 ^ 24 % 256) (n / 2 ^ 16 % 256) (n / 2 ^ 8 % 256)
      (n % 256) = n := by
  unfold u32FromBeBytes
  have e8 : (2 : Nat) ^ 8 = 256 := by norm_num
  have e16 : (2 : Nat) ^ 16 = 65536 := by norm_num
  have e24 : (2 : Nat) ^ 24 = 16777216 := by norm_num
  have e32 : (2 : Nat) ^ 32 = 4294967296 := by norm_num
  rw [e8, e16, e24] at *
  rw [e32] at h
  omega

theorem decode_short (src : List Nat) (h : src.length < HEADER_SIZE) :
    SshAgentCodec.decode src = .ok (none, src) := by
  unfold SshAgentCodec.decode
  rw [if_pos h]

theorem decode_partial (b0 b1 b2 b3 : Nat) (rest : List Nat)
    (h : rest.length < u32FromBeBytes b0 b1 b2 b3) :
    SshAgentCodec.decode (b0 :: b1 :: b2 :: b3 :: rest) =
      .ok (none, b0 :: b1 :: b2 :: b3 :: rest) := by
  unfold SshAgentCodec.decode
  have h1 : ¬ (b0 :: b1 :: b2 :: b3 :: rest).length < HEADER_SIZE := by
    simp [HEADER_SIZE]
  rw [if_neg h1]
  have ht : (b0 :: b1 :: b2 :: b3 :: rest).take HEADER_SIZE = [b0, b1, b2, b3] := rfl
  rw [ht]
  simp only [tryIntoArray4]
  have h2 : (b0 :: b1 :: b2 :: b3 :: rest).length <
      HEADER_SIZE + u32FromBeBytes b0 b1 b2 b3 := by
    simp only [List.length_cons, HEADER_SIZE]
    omega
  rw [if_pos h2]

theorem decode_complete (b0 b1 b2 b3 : Nat) (rest : List Nat)
    (h : u32FromBeBytes b0 b1 b2 b3 ≤ rest.length) :
    SshAgentCodec.decode (b0 :: b1 :: b2 :: b3 :: rest) =
      .ok (some (SshAgentMessage.new (u32FromBeBytes b0 b1 b2 b3)
          (rest.take (u32FromBeBytes b0 b1 b2 b3))),
        rest.drop (u32FromBeBytes b0 b1 b2 b3)) := by
  unfold SshAgentCodec.decode
  have h1 : ¬ (b0 :: b1 :: b2 :: b3 :: rest).length < HEADER_SIZE := by
    simp [HEADER_SIZE]
  rw [if_neg h1]
  have ht : (b0 :: b1 :: b2 :: b3 :: rest).take HEADER_SIZE = [b0, b1, b2, b3] := rfl
  rw [ht]
  simp only [tryIntoArray4]
  have h2 : ¬ (b0 :: b1 :: b2 :: b3 :: rest).length <
      HEADER_SIZE + u32FromBeBytes b0 b1 b2 b3 := by
    simp only [List.length_cons, HEADER_SIZE]
    omega
  rw [if_neg h2]
  rfl

/-- Claim C5: when every open attempt fails, the connector makes exactly
`R + 1` open attempts, sleeps exactly `R` times, and returns the
connection-exhausted error carrying the pipe name, the attempt count
`R + 1`, and the last underlying open error. -/
theorem claim_c5_connect_exhausted (H : Type) (pipe : String) (R D : Nat)
    (errs : Nat → String) :
    connect_to_named_pipe H pipe R D (fun k => .error (errs k)) =
      ⟨.error (.exhausted pipe (R + 1) (errs R)), R + 1, List.replicate R D⟩ :=
  connectFrom_all_fail H pipe R D errs R 0 (Nat.zero_add R)

/-- Claim C6: if the first `k` open attempts fail (`k ≤ R`) and attempt
`k` (0-indexed, i.e. the `k+1`-st attempt) succeeds with handle `h`, the
connector returns that handle having made exactly `k + 1` attempts and
slept exactly `k` delays of `D` milliseconds. -/
theorem claim_c6_connect_succeeds (H : Type) (pipe : String) (R D k : Nat)
    (openFn : Nat → Except String H) (h : H) (hkR : k ≤ R)
    (hfail : ∀ j, j < k → ∃ e, openFn j = .error e)
    (hok : openFn k = .ok h) :
    connect_to_named_pipe H pipe R D openFn =
      ⟨.ok h, k + 1, List.replicate k D⟩ :=
  connectFrom_succeeds H pipe R D k openFn h hkR hfail hok k 0 (Nat.zero_add k)

/-- Witness for C6: retries 3, delay 10, first three attempts fail and the
fourth succeeds: three sleeps of 10 ms, four attempts, handle returned. -/
theorem claim_c6_connect_succeeds_witness :
    connect_to_named_pipe Nat "pipe" 3 10 failThreeThenOk =
      ⟨.ok 7, 3 + 1, List.replicate 3 10⟩ :=
  claim_c6_connect_succeeds Nat "pipe" 3 10 3 failThreeThenOk 7 (by decide)
    (fun j hj => ⟨"pipe busy", by simp [failThreeThenOk, hj]⟩) rfl

/-- Claim C1: for every pair (length, payload) with `payload.len() == length`
(length a `u32`, hence below `2 ^ 32`), encoding the message into an empty
buffer and then decoding that buffer yields exactly the original message and
leaves the buffer empty. -/
theorem claim_c1_roundtrip (length : Nat) (payload : List Nat)
    (hlen : payload.length = length) (hbound : length < 2 ^ 32)
    (buf : List Nat)
    (henc : SshAgentCodec.encode (SshAgentMessage.new length payload) [] = .ok buf) :
    SshAgentCodec.decode buf = .ok (some (SshAgentMessage.new length payload), []) := by
  subst hlen
  simp only [SshAgentCodec.encode, SshAgentMessage.new, List.nil_append,
    Except.ok.injEq] at henc
  subst henc
  have hsplit : u32ToBeBytes payload.length ++ payload =
      payload.length / 2 ^ 24 % 256 :: payload.length / 2 ^ 16 % 256 ::
        payload.length / 2 ^ 8 % 256 :: payload.length % 256 :: payload := rfl
  rw [hsplit, decode_complete _ _ _ _ _ (by rw [u32FromBeBytes_toBeBytes _ hbound]),
    u32FromBeBytes_toBeBytes _ hbound, List.take_length, List.drop_length]

/-- Witness for C1 at the empty message (length 0) and at a payload of
length `2 ^ 20`. -/
theorem claim_c1_roundtrip_witness :
    SshAgentCodec.decode [0, 0, 0, 0] = .ok (some (SshAgentMessage.new 0 []), []) ∧
    SshAgentCodec.decode (u32ToBeBytes (2 ^ 20) ++ List.replicate (2 ^ 20) 7) =
      .ok (some (SshAgentMessage.new (2 ^ 20) (List.replicate (2 ^ 20) 7)), []) :=
  ⟨claim_c1_roundtrip 0 [] rfl (by norm_num) [0, 0, 0, 0] rfl,
    claim_c1_roundtrip (2 ^ 20) (List.replicate (2 ^ 20) 7)
      (List.length_replicate _ _) (by norm_num)
      (u32ToBeBytes (2 ^ 20) ++ List.replicate (2 ^ 20) 7)
      (by simp only [SshAgentCodec.encode, SshAgentMessage.new, List.nil_append])⟩

/-- Claim C2: for every buffer whose first four bytes big-endian-decode to
`L` and which holds at least `4 + L` bytes, decode consumes exactly the
first `4 + L` bytes, returns the message whose payload is bytes `4 .. 4+L`,
and leaves the remaining bytes in the buffer. -/
theorem claim_c2_decode_complete (b0 b1 b2 b3 : Nat) (rest : List Nat)
    (h : u32FromBeBytes b0 b1 b2 b3 ≤ rest.length) :
    SshAgentCodec.decode (b0 :: b1 :: b2 :: b3 :: rest) =
      .ok (some (SshAgentMessage.new (u32FromBeBytes b0 b1 b2 b3)
          (rest.take (u32FromBeBytes b0 b1 b2 b3))),
        rest.drop (u32FromBeBytes b0 b1 b2 b3)) :=
  decode_complete b0 b1 b2 b3 rest h

/-- Witness for C2: one complete framed message (length 2, payload [10, 20])
followed by a partial byte [99]; decode yields the complete message and
keeps only [99] buffered. -/
theorem claim_c2_decode_complete_witness :
    SshAgentCodec.decode [0, 0, 0, 2, 10, 20, 99] =
      .ok (some (SshAgentMessage.new 2 [10, 20]), [99]) :=
  claim_c2_decode_complete 0 0 0 2 [10, 20, 99] (by decide)

/-- Claim C3: a buffer with fewer than four bytes, or with at least four
bytes but fewer than `4 + L` bytes total (`L` the big-endian u32 in the first
four bytes), produces no message and is left completely unchanged. -/
theorem claim_c3_decode_waits :
    (∀ src : List Nat, src.length < HEADER_SIZE →
        SshAgentCodec.decode src = .ok (none, src)) ∧
    (∀ b0 b1 b2 b3 : Nat, ∀ rest : List Nat,
        rest.length < u32FromBeBytes b0 b1 b2 b3 →
        SshAgentCodec.decode (b0 :: b1 :: b2 :: b3 :: rest) =
          .ok (none, b0 :: b1 :: b2 :: b3 :: rest)) :=
  ⟨decode_short, decode_partial⟩

/-- Witness for C3: a 3-byte buffer, and a buffer announcing 5 payload bytes
but holding only 2; both are left unchanged with no message. -/
theorem claim_c3_decode_waits_witness :
    SshAgentCodec.decode [1, 2, 3] = .ok (none, [1, 2, 3]) ∧
    SshAgentCodec.decode [0, 0, 0, 5, 10, 20] = .ok (none, [0, 0, 0, 5, 10, 20]) :=
  ⟨claim_c3_decode_waits.1 [1, 2, 3] (by decide),
    claim_c3_decode_waits.2 0 0 0 5 [10, 20] (by decide)⟩

/-- Claim C4: every message produced by decode satisfies
`payload.len() == length`. -/
theorem claim_c4_invariant (src : List Nat) (m : SshAgentMessage)
    (rest : List Nat) (h : SshAgentCodec.decode src = .ok (some m, rest)) :
    m.payload.length = m.length := by
  unfold SshAgentCodec.decode at h
  split at h
  · simp at h
  · rename_i hlen
    split at h
    · exact absurd h (by simp)
    · dsimp only at h
      split at h
      · simp at h
      · rename_i b0 b1 b2 b3 htry hlen2
        simp only [Except.ok.injEq, Prod.mk.injEq, Option.some.injEq] at h
        obtain ⟨hm, hrest⟩ := h
        subst hm
        simp only [SshAgentMessage.new, List.length_take, List.length_drop]
        simp only [not_lt] at hlen2
        omega

/-- Witness for C4 at a concrete decode producing a message. -/
theorem claim_c4_invariant_witness :
    (SshAgentMessage.new 2 [10, 20]).payload.length =
      (SshAgentMessage.new 2 [10, 20]).length :=
  claim_c4_invariant [0, 0, 0, 2, 10, 20, 99] (SshAgentMessage.new 2 [10, 20]) [99] rfl

/-- Claim C9: encode appends exactly the stored length field as four
big-endian bytes followed by the raw payload bytes to the end of the
destination buffer, and always returns success. -/
theorem claim_c9_encode (item : SshAgentMessage) (dst : List Nat) :
    SshAgentCodec.encode item dst =
      .ok (dst ++ (u32ToBeBytes item.length ++ item.payload)) := by
  simp [SshAgentCodec.encode]

/-- Claim C10: decode never returns an error on any input buffer; the
malformed-length branch is unreachable. -/
theorem claim_c10_decode_never_errors (src : List Nat) :
    ∃ out, SshAgentCodec.decode src = .ok out := by
  match src with
  | [] => exact ⟨_, rfl⟩
  | [_] => exact ⟨_, rfl⟩
  | [_, _] => exact ⟨_, rfl⟩
  | [_, _, _] => exact ⟨_, rfl⟩
  | b0 :: b1 :: b2 :: b3 :: rest =>
    rcases Nat.lt_or_ge rest.length (u32FromBeBytes b0 b1 b2 b3) with hc | hc
    · exact ⟨_, decode_partial b0 b1 b2 b3 rest hc⟩
    · exact ⟨_, decode_complete b0 b1 b2 b3 rest hc⟩

/-- Witness for C10 at a concrete buffer (here one with a large announced
length, the waiting branch). -/
theorem claim_c10_witness :
    ∃ out, SshAgentCodec.decode [255, 255, 255, 255, 1] = .ok out :=
  claim_c10_decode_never_errors [255, 255, 255, 255, 1]

theorem bridgeLoop_clean (stdinR : List ReadItem) :
    ∀ pipeR : List ReadItem, ∀ pipeW stdoutW : List Nat,
      (∀ x ∈ stdinR, ∃ m, x = .ok m) → (∀ x ∈ pipeR, ∃ m, x = .ok m) →
      ∃ out, bridgeLoop stdinR pipeR pipeW stdoutW = .ok out := by
  induction stdinR with
  | nil =>
    intro pipeR pw sw _ _
    exact ⟨(pw, sw), by rw [bridgeLoop]; simp [forward_stream]⟩
  | cons x rest ih =>
    intro pipeR pw sw h1 h2
    obtain ⟨m, hm⟩ := h1 x (by simp)
    subst hm
    cases pipeR with
    | nil =>
      exact ⟨(pw ++ u32ToBeBytes m.length ++ m.payload, sw), by
        rw [bridgeLoop]
        simp [forward_stream, SshAgentCodec.encode]⟩
    | cons y prest =>
      obtain ⟨m2, hm2⟩ := h2 y (by simp)
      subst hm2
      obtain ⟨out, hout⟩ := ih prest (pw ++ u32ToBeBytes m.length ++ m.payload)
        (sw ++ u32ToBeBytes m2.length ++ m2.payload)
        (fun z hz => h1 z (by simp [hz]))
        (fun z hz => h2 z (by simp [hz]))
      refine ⟨out, ?_⟩
      rw [bridgeLoop]
      simpa [forward_stream, SshAgentCodec.encode] using hout

/-- Claim C7: when both source streams close cleanly (every read result is a
message, never an error, and the stream eventually ends), the forwarding
loop terminates with a success result, whichever side closes first. -/
theorem claim_c7_clean_close (stdinR pipeR : List ReadItem)
    (pipeW stdoutW : List Nat)
    (h1 : ∀ x ∈ stdinR, ∃ m, x = .ok m) (h2 : ∀ x ∈ pipeR, ∃ m, x = .ok m) :
    ∃ out, bridgeLoop stdinR pipeR pipeW stdoutW = .ok out :=
  bridgeLoop_clean stdinR pipeR pipeW stdoutW h1 h2

/-- Witness for C7: the pipe side closes after one message while stdin still
has a second message pending; the loop still returns success. -/
theorem claim_c7_clean_close_witness :
    ∃ out, bridgeLoop
      [Except.ok (SshAgentMessage.new 1 [10]), Except.ok (SshAgentMessage.new 1 [11])]
      [Except.ok (SshAgentMessage.new 1 [10])] [] [] = .ok out :=
  claim_c7_clean_close _ _ [] []
    (by
      intro x hx
      simp only [List.mem_cons, List.not_mem_nil, or_false] at hx
      rcases hx with h | h
      · exact ⟨_, h⟩
      · exact ⟨_, h⟩)
    (by
      intro x hx
      simp only [List.mem_cons, List.not_mem_nil, or_false] at hx
      exact ⟨_, hx⟩)

theorem bridgeLoop_echo_general (msgs : List SshAgentMessage)
    (hinv : ∀ m ∈ msgs, m.length = m.payload.length) :
    ∀ pw sw : List Nat,
      bridgeLoop (msgs.map Except.ok) (msgs.map Except.ok) pw sw =
        .ok (pw ++ framedBytes msgs, sw ++ framedBytes msgs) := by
  induction msgs with
  | nil =>
    intro pw sw
    rw [bridgeLoop]
    simp [forward_stream, framedBytes]
  | cons m rest ih =>
    intro pw sw
    have hm := hinv m (by simp)
    rw [bridgeLoop]
    simp only [List.map_cons, forward_stream, SshAgentCodec.encode]
    rw [ih (fun z hz => hinv z (by simp [hz]))]
    simp [framedBytes, hm, List.append_assoc]

/-- Claim C8: the forwarding loop fed `N` messages on process input, with
the endpoint echoing each message back, delivers to process output (and to
the endpoint) exactly those `N` messages in order, each preceded by its
correct four-byte big-endian length header, and terminates successfully. -/
theorem claim_c8_echo (msgs : List SshAgentMessage)
    (hinv : ∀ m ∈ msgs, m.length = m.payload.length) :
    bridgeLoop (msgs.map Except.ok) (msgs.map Except.ok) [] [] =
      .ok (framedBytes msgs, framedBytes msgs) := by
  simpa using bridgeLoop_echo_general msgs hinv [] []

/-- Witness for C8 at three concrete messages. -/
theorem claim_c8_echo_witness :
    bridgeLoop
        ([SshAgentMessage.new 1 [10], SshAgentMessage.new 2 [20, 21],
          SshAgentMessage.new 0 []].map Except.ok)
        ([SshAgentMessage.new 1 [10], SshAgentMessage.new 2 [20, 21],
          SshAgentMessage.new 0 []].map Except.ok) [] [] =
      .ok (framedBytes [SshAgentMessage.new 1 [10], SshAgentMessage.new 2 [20, 21],
          SshAgentMessage.new 0 []],
        framedBytes [SshAgentMessage.new 1 [10], SshAgentMessage.new 2 [20, 21],
          SshAgentMessage.new 0 []]) :=
  claim_c8_echo _ (by decide)

end WslSshAgent
